import Mathlib

/-!
# Shallow embedding of `src/rendering/generate_tilesets.py`

The script rasterizes character repertoires (CP437 and a Unicode subset)
into fixed-grid sprite-sheet atlases using the PIL imaging library.
This file embeds the script's decision logic:
the tofu-footprint cache (`get_tofu_pixels`), the glyph-presence
classifier (`font_has_glyph`), the symbol-range font-selection policy
(`should_use_symbol_font` and the selection block of
`create_unicode_tileset`), the per-character tile renderer
(`render_char_to_tile`), and the two atlas builds.

External collaborators (PIL) are modelled as follows.

* An image is a pair of dimensions plus a total pixel function
  `Int → Int → Pixel`; `Image.new` produces the constant function,
  `ImageDraw.text` overwrites exactly the pixels covered by the glyph
  mask, `Image.paste` (no mask argument) replaces the pixels of the
  destination rectangle, and `Image.resize` produces an image of exactly
  the requested dimensions whose content comes from an abstract
  resampling function (the `lanczos : Resampler` parameter stands for
  the `Image.LANCZOS` filter).
* A font handle is an oracle for the rasterizer's behaviour:
  `renderPixels c` is the number of non-zero pixels left by drawing
  codepoint `c` at offset (10,10) on a blank 100x100 grayscale canvas
  (the probe canvas of `get_tofu_pixels` / `font_has_glyph`), with
  `none` modelling the rasterizer raising an exception on that
  codepoint (the case the `try/except` in `font_has_glyph` catches;
  `textbbox` and `ImageDraw.text` share the same glyph-loading
  machinery, so the unguarded calls in `render_char_to_tile` raise on
  exactly the same codepoints); `bbox c` is the result of
  `textbbox((0,0), c)` with `none` modelling a `None` return (the case
  the `if bbox is None` branch handles); `mask c x y` tells whether the
  glyph drawn with pen origin `(0,0)` covers pixel `(x, y)`.
  `fontId` models the CPython object identity `id(font)` used as the
  tofu-cache key.
* Exceptions are `Except Unit`; file paths and the filesystem existence
  check of the font loaders are a `String → Bool` predicate plus a
  `String → Nat → Font` loading capability standing for
  `os.path.exists` and `ImageFont.truetype`.

Characters are their Unicode codepoints (`Nat`); Python's `chr` is the
identity under this convention.
-/

/-- An RGBA pixel value. -/
abbrev Pixel := Nat × Nat × Nat × Nat

/-- The transparent background `(0, 0, 0, 0)` used by every `Image.new` call. -/
def transparent : Pixel := (0, 0, 0, 0)

/-- `DEFAULT_COLOR = (255, 255, 255)` with the alpha 255 appended, i.e. the
`DEFAULT_COLOR + (255,)` fill passed to every tile-drawing call. -/
def DEFAULT_FILL : Pixel := (255, 255, 255, 255)

/-- A PIL image: dimensions plus a total pixel function. -/
structure Img where
  width : Nat
  height : Nat
  px : Int → Int → Pixel

/-- `Image.new(mode, (w, h), color)`: a blank canvas of constant colour. -/
def Image_new (w h : Nat) (c : Pixel) : Img :=
  ⟨w, h, fun _ _ => c⟩

/-- A loaded font resource (`ImageFont.truetype` result), modelled as an
oracle for the external rasterizer's behaviour; see the module docstring. -/
structure Font where
  fontId : Nat
  renderPixels : Nat → Option Nat
  bbox : Nat → Option (Int × Int × Int × Int)
  mask : Nat → Int → Int → Bool

/-- Whether the rasterizer's measure/draw machinery succeeds on codepoint
`c` for this font (`renderPixels c` is a real count rather than an
exception). -/
def Font.canRender (f : Font) (c : Nat) : Bool :=
  (f.renderPixels c).isSome

/-- `draw.text((ox, oy), chr c, fill, font)`: overwrite exactly the pixels
covered by the glyph mask translated to pen origin `(ox, oy)`. -/
def drawText (img : Img) (ox oy : Int) (c : Nat) (fill : Pixel) (f : Font) : Img :=
  ⟨img.width, img.height, fun x y => if f.mask c (x - ox) (y - oy) then fill else img.px x y⟩

/-- The external resampling filter (`Image.LANCZOS`): given a source image
and target dimensions, produce the pixel function of the resized image. -/
abbrev Resampler := Img → Nat → Nat → Int → Int → Pixel

/-- `img.resize((w, h), filter)`: an image of exactly the requested
dimensions with externally resampled content. -/
def Image_resize (r : Resampler) (img : Img) (w h : Nat) : Img :=
  ⟨w, h, r img w h⟩

/-- `dst.paste(src, (ox, oy))` with no mask argument: replace the pixels of
the destination rectangle of `src`'s size at offset `(ox, oy)`. -/
def Image_paste (dst src : Img) (ox oy : Int) : Img :=
  ⟨dst.width, dst.height, fun x y =>
    if ox ≤ x ∧ x < ox + src.width ∧ oy ≤ y ∧ y < oy + src.height then
      src.px (x - ox) (y - oy)
    else dst.px x y⟩

/-! ## Configuration constants (lines 7–17, 50) -/

def TILE_WIDTH : Nat := 38
def TILE_HEIGHT : Nat := 64
def FONT_SIZE : Nat := 52
def CP437_TILES_PER_ROW : Nat := 16
def UNICODE_TILES_PER_ROW : Nat := 32

/-- Python's `range(a, b)` over codepoints. -/
def pyRange (a b : Nat) : List Nat := List.range' a (b - a)

/-- The CP437 codepoint table `CP437_MAP` (lines 20–42). -/
def CP437_MAP : List Nat :=
  [0x0000, 0x263A, 0x263B, 0x2665, 0x2666, 0x2663, 0x2660, 0x2022,
   0x25D8, 0x25CB, 0x25D9, 0x2642, 0x2640, 0x266A, 0x266B, 0x263C,
   0x25BA, 0x25C4, 0x2195, 0x203C, 0x00B6, 0x00A7, 0x25AC, 0x21A8,
   0x2191, 0x2193, 0x2192, 0x2190, 0x221F, 0x2194, 0x25B2, 0x25BC] ++
  pyRange 0x0020 0x0080 ++
  [0x00C7, 0x00FC, 0x00E9, 0x00E2, 0x00E4, 0x00E0, 0x00E5, 0x00E7,
   0x00EA, 0x00EB, 0x00E8, 0x00EF, 0x00EE, 0x00EC, 0x00C4, 0x00C5,
   0x00C9, 0x00E6, 0x00C6, 0x00F4, 0x00F6, 0x00F2, 0x00FB, 0x00F9,
   0x00FF, 0x00D6, 0x00DC, 0x00A2, 0x00A3, 0x00A5, 0x20A7, 0x0192,
   0x00E1, 0x00ED, 0x00F3, 0x00FA, 0x00F1, 0x00D1, 0x00AA, 0x00BA,
   0x00BF, 0x2310, 0x00AC, 0x00BD, 0x00BC, 0x00A1, 0x00AB, 0x00BB,
   0x2591, 0x2592, 0x2593, 0x2502, 0x2524, 0x2561, 0x2562, 0x2556,
   0x2555, 0x2563, 0x2551, 0x2557, 0x255D, 0x255C, 0x255B, 0x2510,
   0x2514, 0x2534, 0x252C, 0x251C, 0x2500, 0x253C, 0x255E, 0x255F,
   0x255A, 0x2554, 0x2569, 0x2566, 0x2560, 0x2550, 0x256C, 0x2567,
   0x2568, 0x2564, 0x2565, 0x2559, 0x2558, 0x2552, 0x2553, 0x256B,
   0x256A, 0x2518, 0x250C, 0x2588, 0x2584, 0x258C, 0x2590, 0x2580,
   0x03B1, 0x00DF, 0x0393, 0x03C0, 0x03A3, 0x03C3, 0x00B5, 0x03C4,
   0x03A6, 0x0398, 0x03A9, 0x03B4, 0x221E, 0x03C6, 0x03B5, 0x2229,
   0x2261, 0x00B1, 0x2265, 0x2264, 0x2320, 0x2321, 0x00F7, 0x2248,
   0x00B0, 0x2219, 0x00B7, 0x221A, 0x207F, 0x00B2, 0x25A0, 0x00A0]

/-- `CP437_CHARS = [chr(cp) for cp in CP437_MAP]` (line 44); `chr` is the
identity under the codepoint convention. -/
def CP437_CHARS : List Nat := CP437_MAP

/-- `UNICODE_CHARS` (lines 53–86): the concatenation of the Unicode block
ranges collected by the script. -/
def UNICODE_CHARS : List Nat :=
  pyRange 0x0020 0x007F ++ pyRange 0x00A0 0x0100 ++ pyRange 0x0370 0x0400 ++
  pyRange 0x2200 0x2300 ++ pyRange 0x2300 0x2400 ++ pyRange 0x2500 0x2580 ++
  pyRange 0x2580 0x25A0 ++ pyRange 0x25A0 0x2600 ++ pyRange 0x2600 0x2700 ++
  pyRange 0x2700 0x27C0

/-! ## Font loaders (lines 98–141) -/

/-- The `font_paths` candidate list of `load_font` (lines 102–112), with
`fonts_dir` standing for `get_project_fonts_dir()`. -/
def font_paths (fonts_dir : String) : List String :=
  [fonts_dir ++ "/NotoSansMono-VariableFont_wdth,wght.ttf",
   "/usr/share/fonts/truetype/dejavu/DejaVuSansMono.ttf",
   "/System/Library/Fonts/Menlo.ttc",
   "/System/Library/Fonts/Courier.ttc",
   "/usr/share/fonts/truetype/liberation/LiberationMono-Regular.ttf",
   "C:\\Windows\\Fonts\\DejaVuSansMono.ttf",
   "C:\\Windows\\Fonts\\consola.ttf"]

/-- `load_font()` (lines 98–121): return the first existing candidate
loaded at `FONT_SIZE`; if none exists, return the degenerate
`ImageFont.load_default()` fallback (`default_font`). -/
def load_font (exists_p : String → Bool) (truetype : String → Nat → Font)
    (default_font : Font) (fonts_dir : String) : Font :=
  match (font_paths fonts_dir).find? exists_p with
  | some p => truetype p FONT_SIZE
  | none => default_font

/-- The `symbol_font_paths` candidate list of `load_symbol_fonts`
(lines 130–133): Noto Symbols 1 first, then Noto Symbols 2. -/
def symbol_font_paths (fonts_dir : String) : List String :=
  [fonts_dir ++ "/NotoSansSymbols-Regular.ttf",
   fonts_dir ++ "/NotoSansSymbols2-Regular.ttf"]

/-- The loading loop of `load_symbol_fonts` (lines 135–139): append a font
loaded at `FONT_SIZE` for each existing path, preserving order. -/
def load_fonts_loop (exists_p : String → Bool) (truetype : String → Nat → Font) :
    List String → List Font
  | [] => []
  | p :: rest =>
    if exists_p p then truetype p FONT_SIZE :: load_fonts_loop exists_p truetype rest
    else load_fonts_loop exists_p truetype rest

/-- `load_symbol_fonts()` (lines 124–141). Note there is no fallback font:
if no symbol-font file exists the result is the empty list. -/
def load_symbol_fonts (exists_p : String → Bool) (truetype : String → Nat → Font)
    (fonts_dir : String) : List Font :=
  load_fonts_loop exists_p truetype (symbol_font_paths fonts_dir)

/-! ## Tofu cache and glyph classifier (lines 144–192) -/

/-- The module-level `_tofu_cache` dictionary: an association list from
`id(font)` to the cached pixel count. -/
abbrev TofuState := List (Nat × Nat)

/-- The initial `_tofu_cache = {}` (line 145): a fresh process starts with
an empty cache; nothing is persisted across runs. -/
def initTofuState : TofuState := []

/-- The probe codepoint `chr(0xFFFF)` rendered by `get_tofu_pixels`. -/
def tofu_probe : Nat := 0xFFFF

/-- `get_tofu_pixels(font)` (lines 148–158): on a cache miss, render the
probe codepoint once (at offset (10,10) on a blank 100x100 canvas, counting
non-zero pixels — the composite modelled by `renderPixels`) and store the
count keyed by `id(font)`; on a hit, return the cached count.  `none` is
the unhandled exception escaping from the probe render. -/
def get_tofu_pixels (st : TofuState) (font : Font) : Option (Nat × TofuState) :=
  match st.lookup font.fontId with
  | some pixels => some (pixels, st)
  | none =>
    match font.renderPixels tofu_probe with
    | some pixels => some (pixels, (font.fontId, pixels) :: st)
    | none => none

/-- `font_has_glyph(font, char)` (lines 161–192): spaces are
unconditionally `True`; otherwise render the character, compare the pixel
count with the tofu footprint, reject exact-tofu and zero-pixel renders;
any exception inside the `try` block (either from rendering the character
or from the tofu probe) yields `False`. -/
def font_has_glyph (st : TofuState) (font : Font) (char : Nat) : Bool × TofuState :=
  if char = 0x20 ∨ char = 0xA0 then (true, st)
  else
    match font.renderPixels char with
    | none => (false, st)
    | some pixels =>
      match get_tofu_pixels st font with
      | none => (false, st)
      | some (tofu_pixels, st') =>
        if pixels = tofu_pixels then (false, st')
        else if pixels = 0 then (false, st')
        else (true, st')

/-! ## Symbol-range preference and font selection (lines 195–217, 344–368) -/

/-- The `symbol_ranges` list (lines 207–212). -/
def symbol_ranges : List (Nat × Nat) :=
  [(0x2300, 0x23FF), (0x25A0, 0x25FF), (0x2600, 0x26FF), (0x2700, 0x27BF)]

/-- `should_use_symbol_font(char)` (lines 195–217): whether the codepoint
falls in any of the inclusive symbol ranges. -/
def should_use_symbol_font (char : Nat) : Bool :=
  symbol_ranges.any (fun r => decide (r.1 ≤ char) && decide (char ≤ r.2))

/-- The symbol-font loop of the selection block (lines 349–354 and
363–368): walk the symbol fonts in order, selecting the first whose
`font_has_glyph` check passes, threading the tofu cache. -/
def find_symbol_font (st : TofuState) (fonts : List Font) (char : Nat) :
    Option Font × TofuState :=
  match fonts with
  | [] => (none, st)
  | f :: rest =>
    let r := font_has_glyph st f char
    if r.1 then (some f, r.2) else find_symbol_font r.2 rest char

/-- The font-selection block of `create_unicode_tileset` (lines 344–368):
symbol-preferring characters try the symbol fonts first and fall back to
the main font; all others try the main font first and fall back through
the symbol fonts. -/
def select_font (st : TofuState) (main_font : Font) (symbol_fonts : List Font)
    (char : Nat) : Option Font × TofuState :=
  if should_use_symbol_font char then
    let r := find_symbol_font st symbol_fonts char
    match r.1 with
    | some f => (some f, r.2)
    | none =>
      let m := font_has_glyph r.2 main_font char
      if m.1 then (some main_font, m.2) else (none, m.2)
  else
    let m := font_has_glyph st main_font char
    if m.1 then (some main_font, m.2)
    else find_symbol_font m.2 symbol_fonts char

/-! ## Tile renderer (lines 220–274) -/

/-- Python's `int()` applied to a float value: truncation toward zero. -/
def pyTrunc (q : ℚ) : Int :=
  if 0 ≤ q then ⌊q⌋ else ⌈q⌉

/-- `needs_scale = char_width > max_width or char_height > max_height`
(line 238). -/
def needs_scale (char_width char_height max_width max_height : Int) : Bool :=
  decide (max_width < char_width) || decide (max_height < char_height)

/-- `scale = min(max_width / char_width, max_height / char_height)`
(lines 242–244), with Python float division modelled exactly in `ℚ`. -/
def scale_factor (char_width char_height max_width max_height : Int) : ℚ :=
  min ((max_width : ℚ) / (char_width : ℚ)) ((max_height : ℚ) / (char_height : ℚ))

/-- `max(1, int(dim * scale))` (lines 253–254): a scaled dimension clamped
to at least one pixel. -/
def scaled_dim (dim : Int) (scale : ℚ) : Int :=
  max 1 (pyTrunc ((dim : ℚ) * scale))

/-- The intermediate canvas of the scaling branch (lines 247–250): a blank
transparent canvas of `(int(char_width * 2), int(char_height * 2))` onto
which the glyph is drawn at `(-bbox[0], -bbox[1])` — note the draw call
uses the same font handle at its one loaded size, so the glyph itself is
rendered at natural (1x) size on the doubled canvas. -/
def large_image (char : Nat) (font : Font) (bbox : Int × Int × Int × Int)
    (char_width char_height : Int) : Img :=
  drawText (Image_new (2 * char_width).toNat (2 * char_height).toNat transparent)
    (-bbox.1) (-bbox.2.1) char DEFAULT_FILL font

/-- `render_char_to_tile(char, font, tile_width, tile_height)`
(lines 220–274).  The measuring canvas of lines 223–229 only serves the
`textbbox` call, modelled by `font.bbox` with the `if bbox is None`
default; an exception from the rasterizer (the font cannot process the
codepoint, `canRender = false`) escapes the function, which contains no
exception handling. -/
def render_char_to_tile (lanczos : Resampler) (char : Nat) (font : Font)
    (tile_width tile_height : Nat) : Except Unit Img :=
  if font.canRender char then
    let bbox := (font.bbox char).getD (0, 0, 0, 0)
    let char_width := bbox.2.2.1 - bbox.1
    let char_height := bbox.2.2.2 - bbox.2.1
    let max_width : Int := (tile_width : Int) - 2
    let max_height : Int := (tile_height : Int) - 4
    if needs_scale char_width char_height max_width max_height &&
        decide (0 < char_width) && decide (0 < char_height) then
      let scale := scale_factor char_width char_height max_width max_height
      let large_img := large_image char font bbox char_width char_height
      let new_width := scaled_dim char_width scale
      let new_height := scaled_dim char_height scale
      let scaled_img := Image_resize lanczos large_img new_width.toNat new_height.toNat
      let tile_img := Image_new tile_width tile_height transparent
      let x := ((tile_width : Int) - new_width).fdiv 2
      let y := ((tile_height : Int) - new_height).fdiv 2
      .ok (Image_paste tile_img scaled_img x y)
    else
      let tile_img := Image_new tile_width tile_height transparent
      let x := ((tile_width : Int) - char_width).fdiv 2 - bbox.1
      let y := ((tile_height : Int) - char_height).fdiv 2 - bbox.2.1
      .ok (drawText tile_img x y char DEFAULT_FILL font)
  else .error ()

/-! ## Atlas layout and the two builds (lines 277–297, 320–377) -/

/-- `rows = (num_chars + tiles_per_row - 1) // tiles_per_row`
(lines 280, 323). -/
def grid_rows (num_chars tiles_per_row : Nat) : Nat :=
  (num_chars + tiles_per_row - 1) / tiles_per_row

/-- The pixel offset of the cell for linear index `i`
(lines 291–294, 339–342): `(col * tile_width, row * tile_height)` with
`col = i % tiles_per_row` and `row = i // tiles_per_row`. -/
def cell_offset (i tiles_per_row tile_width tile_height : Nat) : Nat × Nat :=
  ((i % tiles_per_row) * tile_width, (i / tiles_per_row) * tile_height)

/-- The pixel region of the cell for linear index `i`: the
`tile_width × tile_height` rectangle at `cell_offset`. -/
def cell_region (i tiles_per_row tile_width tile_height : Nat) (x y : Int) : Prop :=
  ((cell_offset i tiles_per_row tile_width tile_height).1 : Int) ≤ x ∧
  x < (cell_offset i tiles_per_row tile_width tile_height).1 + tile_width ∧
  ((cell_offset i tiles_per_row tile_width tile_height).2 : Int) ≤ y ∧
  y < (cell_offset i tiles_per_row tile_width tile_height).2 + tile_height

/-- The character loop of `create_cp437_tileset` (lines 290–297),
`i` being the `enumerate` counter: every character is rendered with the
single main font — no glyph check, no symbol fonts — and pasted at its
cell offset.  A rasterizer exception escapes the build. -/
def cp437_loop (lanczos : Resampler) (font : Font) :
    Nat → List Nat → Img → Except Unit Img
  | _, [], image => .ok image
  | i, char :: rest, image =>
    match render_char_to_tile lanczos char font TILE_WIDTH TILE_HEIGHT with
    | .error e => .error e
    | .ok tile =>
      cp437_loop lanczos font (i + 1) rest
        (Image_paste image tile
          ((cell_offset i CP437_TILES_PER_ROW TILE_WIDTH TILE_HEIGHT).1 : Int)
          ((cell_offset i CP437_TILES_PER_ROW TILE_WIDTH TILE_HEIGHT).2 : Int))

/-- `create_cp437_tileset()` (lines 277–297) up to the final saves: build
the 16-column atlas by rendering every CP437 character with the main font
(the font `load_font()` returned at line 287 is the `font` parameter). -/
def create_cp437_tileset (lanczos : Resampler) (font : Font) : Except Unit Img :=
  let num_chars := CP437_CHARS.length
  let rows := grid_rows num_chars CP437_TILES_PER_ROW
  cp437_loop lanczos font 0 CP437_CHARS
    (Image_new (CP437_TILES_PER_ROW * TILE_WIDTH) (rows * TILE_HEIGHT) transparent)

/-- The character loop of `create_unicode_tileset` (lines 338–377):
select a font via the selection block; with no usable font, record the
character in `missing_chars` and leave the cell untouched; otherwise
render the tile and paste it at the cell offset. -/
def unicode_loop (lanczos : Resampler) (main_font : Font) (symbol_fonts : List Font) :
    Nat → List Nat → Img → TofuState → List Nat →
    Except Unit (Img × TofuState × List Nat)
  | _, [], image, st, missing => .ok (image, st, missing)
  | i, char :: rest, image, st, missing =>
    let sel := select_font st main_font symbol_fonts char
    match sel.1 with
    | none => unicode_loop lanczos main_font symbol_fonts (i + 1) rest image sel.2 (missing ++ [char])
    | some f =>
      match render_char_to_tile lanczos char f TILE_WIDTH TILE_HEIGHT with
      | .error e => .error e
      | .ok tile =>
        unicode_loop lanczos main_font symbol_fonts (i + 1) rest
          (Image_paste image tile
            ((cell_offset i UNICODE_TILES_PER_ROW TILE_WIDTH TILE_HEIGHT).1 : Int)
            ((cell_offset i UNICODE_TILES_PER_ROW TILE_WIDTH TILE_HEIGHT).2 : Int))
          sel.2 missing

/-- `create_unicode_tileset()` (lines 320–377) up to the final saves:
`main_font` and `symbol_fonts` are the results of the `load_font()` and
`load_symbol_fonts()` calls at lines 330–331, and `st` is the process-wide
`_tofu_cache` at entry.  The result carries the final image, the final
cache, and the `missing_chars` diagnostic list (as codepoints). -/
def create_unicode_tileset (lanczos : Resampler) (main_font : Font)
    (symbol_fonts : List Font) (st : TofuState) :
    Except Unit (Img × TofuState × List Nat) :=
  let num_chars := UNICODE_CHARS.length
  let rows := grid_rows num_chars UNICODE_TILES_PER_ROW
  unicode_loop lanczos main_font symbol_fonts 0 UNICODE_CHARS
    (Image_new (UNICODE_TILES_PER_ROW * TILE_WIDTH) (rows * TILE_HEIGHT) transparent)
    st []

/-! ## Spec-side definitions and run invariants -/

/-- The glyph-presence outcome of `font_has_glyph` for a font at a fresh
cache.  Within a run this is the outcome of every check for that font:
the cache only ever stores actual probe counts (`coherentTofu`), so the
boolean result never depends on the cache contents. -/
def hasGlyphRun (f : Font) (c : Nat) : Bool :=
  (font_has_glyph initTofuState f c).1

/-- Modelled from the spec (§4.4, claim C2): the four inclusive
symbol-preferring codepoint ranges. -/
def spec_symbol_preferring (c : Nat) : Bool :=
  (decide (0x2300 ≤ c) && decide (c ≤ 0x23FF)) ||
  (decide (0x25A0 ≤ c) && decide (c ≤ 0x25FF)) ||
  (decide (0x2600 ≤ c) && decide (c ≤ 0x26FF)) ||
  (decide (0x2700 ≤ c) && decide (c ≤ 0x27BF))

/-- Modelled from the spec (§4.4): the declared selection priority — a
symbol-preferring character tries the symbol fonts in order and falls
back to the general font; any other character tries the general font
first and falls back through the symbol fonts in order; `none` when no
candidate has a usable glyph. -/
def selectFontSpec (main_font : Font) (symbol_fonts : List Font) (c : Nat) : Option Font :=
  if spec_symbol_preferring c then
    match symbol_fonts.find? (fun f => hasGlyphRun f c) with
    | some f => some f
    | none => if hasGlyphRun main_font c then some main_font else none
  else
    if hasGlyphRun main_font c then some main_font
    else symbol_fonts.find? (fun f => hasGlyphRun f c)

/-- The tofu cache is coherent for a set of fonts: every entry stored
under a font's identity key is that font's actual probe count.  This is
an invariant of the Python run: the cache starts empty and only ever
stores real probe renders. -/
def coherentTofu (st : TofuState) (fonts : List Font) : Prop :=
  ∀ f ∈ fonts, ∀ p, st.lookup f.fontId = some p → f.renderPixels tofu_probe = some p

/-- Distinct cache keys: in CPython, distinct live font objects have
distinct `id()` values. -/
def distinctIds (fonts : List Font) : Prop :=
  fonts.Pairwise (fun a b => a.fontId ≠ b.fontId)

/-- The set of pixels `render_char_to_tile` may write, following its
branch structure: in the scaling branch the pasted rectangle of the
resized canvas, otherwise the pixels of the directly drawn glyph mask.
Everything outside is untouched background. -/
def tile_draw_region (char : Nat) (font : Font) (tile_width tile_height : Nat)
    (x y : Int) : Prop :=
  let bbox := (font.bbox char).getD (0, 0, 0, 0)
  let char_width := bbox.2.2.1 - bbox.1
  let char_height := bbox.2.2.2 - bbox.2.1
  let max_width : Int := (tile_width : Int) - 2
  let max_height : Int := (tile_height : Int) - 4
  if needs_scale char_width char_height max_width max_height &&
      decide (0 < char_width) && decide (0 < char_height) then
    let nw := scaled_dim char_width (scale_factor char_width char_height max_width max_height)
    let nh := scaled_dim char_height (scale_factor char_width char_height max_width max_height)
    let px0 := ((tile_width : Int) - nw).fdiv 2
    let py0 := ((tile_height : Int) - nh).fdiv 2
    px0 ≤ x ∧ x < px0 + (nw.toNat : Int) ∧ py0 ≤ y ∧ y < py0 + (nh.toNat : Int)
  else
    font.mask char (x - (((tile_width : Int) - char_width).fdiv 2 - bbox.1))
      (y - (((tile_height : Int) - char_height).fdiv 2 - bbox.2.1)) = true

/-! ## Concrete collaborator instances for witnesses and counterexamples -/

/-- A resampler producing a fully transparent result (any concrete
resampler works for the statements below that do not depend on resampled
content). -/
def trivialResampler : Resampler := fun _ _ _ _ _ => transparent

/-- A font whose probe footprint is 5, with a real glyph for most
codepoints (9 pixels), an exact-tofu render for 0x42 and an empty render
for 0x43. -/
def sampleFont : Font :=
  ⟨0,
   fun c => some (if c = 0xFFFF then 5 else if c = 0x42 then 5 else if c = 0x43 then 0 else 9),
   fun _ => some (0, 0, 10, 10),
   fun _ _ _ => false⟩

/-- A font on which every rasterizer call raises. -/
def failFont : Font := ⟨1, fun _ => none, fun _ => none, fun _ _ _ => false⟩

/-- A font with a full-box 72x120 glyph for every codepoint: natural
bounding box `(0, 0, 72, 120)` and a mask covering exactly that box. -/
def boxFont : Font :=
  ⟨2, fun _ => some 100, fun _ => some (0, 0, 72, 120),
   fun _ x y => decide (0 ≤ x) && decide (x < 72) && decide (0 ≤ y) && decide (y < 120)⟩

/-- A font every render of which has exactly the tofu footprint (5
pixels) — the classifier deems every glyph missing — while the drawn
placeholder box covers the 10x10 square at the pen origin. -/
def tofuFont : Font :=
  ⟨3, fun _ => some 5, fun _ => some (0, 0, 10, 10),
   fun _ x y => decide (0 ≤ x) && decide (x < 10) && decide (0 ≤ y) && decide (y < 10)⟩

/-- A symbol font with a real glyph only for U+2626 (probe footprint 3). -/
def symFontA : Font :=
  ⟨4, fun c => some (if c = 0x2626 then 40 else 3),
   fun _ => some (0, 0, 10, 10), fun _ _ _ => false⟩

/-- A second symbol font with a real glyph only for U+2700 (probe
footprint 7). -/
def symFontB : Font :=
  ⟨5, fun c => some (if c = 0x2700 then 30 else 7),
   fun _ => some (0, 0, 10, 10), fun _ _ _ => false⟩

/-- A font whose every render equals its tofu footprint and whose mask is
empty: the classifier rejects every non-whitespace codepoint and every
drawn tile is fully transparent. -/
def plainFont : Font :=
  ⟨6, fun _ => some 5, fun _ => some (0, 0, 10, 10), fun _ _ _ => false⟩

/-! ## Helper lemmas -/

/-- A scaled dimension clamped by `scaled_dim` stays within the bound `m`
whenever the scale is at most `m / d`. -/
theorem scaled_dim_le (d m : Int) (s : ℚ) (hd : 0 < d) (hm : 1 ≤ m)
    (hs0 : 0 ≤ s) (hsle : s ≤ (m : ℚ) / (d : ℚ)) : scaled_dim d s ≤ m := by
  have hdq : (0 : ℚ) < (d : ℚ) := by exact_mod_cast hd
  have h1 : (d : ℚ) * s ≤ (d : ℚ) * ((m : ℚ) / (d : ℚ)) :=
    mul_le_mul_of_nonneg_left hsle (le_of_lt hdq)
  have h2 : (d : ℚ) * ((m : ℚ) / (d : ℚ)) = (m : ℚ) := by
    field_simp
  have h3 : (d : ℚ) * s ≤ (m : ℚ) := h2 ▸ h1
  have h4 : 0 ≤ (d : ℚ) * s := mul_nonneg (le_of_lt hdq) hs0
  unfold scaled_dim pyTrunc
  rw [if_pos h4]
  have h5 : ⌊(d : ℚ) * s⌋ ≤ m := by
    calc ⌊(d : ℚ) * s⌋ ≤ ⌊(m : ℚ)⌋ := Int.floor_le_floor h3
    _ = m := Int.floor_intCast m
  exact max_le hm h5

/-- `grid_rows` computes the ceiling of `n / t`: it is the least `m` with
`n ≤ t * m`. -/
theorem grid_rows_spec (n t : Nat) (h : 0 < t) :
    n ≤ t * grid_rows n t ∧ ∀ m, n ≤ t * m → grid_rows n t ≤ m := by
  unfold grid_rows
  have hd := Nat.div_add_mod (n + t - 1) t
  have hmod : (n + t - 1) % t < t := Nat.mod_lt _ h
  obtain ⟨q, hq⟩ : ∃ q, (n + t - 1) / t = q := ⟨_, rfl⟩
  obtain ⟨r, hr⟩ : ∃ r, (n + t - 1) % t = r := ⟨_, rfl⟩
  rw [hq, hr] at hd
  rw [hr] at hmod
  obtain ⟨s, hs⟩ : ∃ s, t * q = s := ⟨_, rfl⟩
  rw [hs] at hd
  rw [hq]
  constructor
  · rw [hs]
    omega
  · intro m hnm
    by_contra hlt
    push_neg at hlt
    have h2 : t * (m + 1) ≤ t * q := Nat.mul_le_mul_left t (by omega)
    rw [Nat.mul_add, Nat.mul_one, hs] at h2
    obtain ⟨u, hu⟩ : ∃ u, t * m = u := ⟨_, rfl⟩
    rw [hu] at h2 hnm
    omega

/-- Distinct cells of the 16-column CP437 grid occupy disjoint pixel
rectangles. -/
theorem cell_region_disjoint_cp437 (i j : Nat) (x y : Int) (hij : i ≠ j)
    (hi : cell_region i CP437_TILES_PER_ROW TILE_WIDTH TILE_HEIGHT x y)
    (hj : cell_region j CP437_TILES_PER_ROW TILE_WIDTH TILE_HEIGHT x y) : False := by
  unfold cell_region cell_offset CP437_TILES_PER_ROW TILE_WIDTH TILE_HEIGHT at hi hj
  omega

/-- Distinct cells of the 32-column Unicode grid occupy disjoint pixel
rectangles. -/
theorem cell_region_disjoint_unicode (i j : Nat) (x y : Int) (hij : i ≠ j)
    (hi : cell_region i UNICODE_TILES_PER_ROW TILE_WIDTH TILE_HEIGHT x y)
    (hj : cell_region j UNICODE_TILES_PER_ROW TILE_WIDTH TILE_HEIGHT x y) : False := by
  unfold cell_region cell_offset UNICODE_TILES_PER_ROW TILE_WIDTH TILE_HEIGHT at hi hj
  omega

/-- The CP437 loop never changes the atlas dimensions. -/
theorem cp437_loop_dims (lanczos : Resampler) (font : Font) :
    ∀ (chars : List Nat) (i : Nat) (img res : Img),
      cp437_loop lanczos font i chars img = .ok res →
      res.width = img.width ∧ res.height = img.height := by
  intro chars
  induction chars with
  | nil =>
    intro i img res h
    simp only [cp437_loop] at h
    injection h with h
    subst h
    exact ⟨rfl, rfl⟩
  | cons c rest ih =>
    intro i img res h
    simp only [cp437_loop] at h
    split at h
    · cases h
    · have h2 := ih _ _ _ h
      exact h2

/-! ## Claim theorems -/

/-- C7: the tofu footprint is rendered at most once per font: a first call
with the font's identity absent from the cache renders the probe and
stores the count keyed by `id(font)`; any later call for a font with the
same identity returns the cached count unchanged without consulting the
rasterizer at all; and the cache starts empty with the process (no
cross-run persistence). -/
theorem get_tofu_pixels_memoized :
    (∀ (st : TofuState) (f : Font), st.lookup f.fontId = none →
      get_tofu_pixels st f =
        (f.renderPixels tofu_probe).map (fun p => (p, (f.fontId, p) :: st))) ∧
    (∀ (st : TofuState) (f f' : Font) (p : Nat), st.lookup f.fontId = some p →
      f'.fontId = f.fontId → get_tofu_pixels st f' = some (p, st)) ∧
    initTofuState = ([] : TofuState) := by
  refine ⟨?_, ?_, rfl⟩
  · intro st f h
    simp only [get_tofu_pixels, h]
    cases hp : f.renderPixels tofu_probe <;> simp [hp]
  · intro st f f' p h hid
    simp only [get_tofu_pixels, hid, h]

/-- C7 witness: a fresh call on `sampleFont` renders the probe (5 pixels)
and caches it; a second call (indeed for any font sharing identity 0)
returns the cached count with the cache unchanged. -/
theorem get_tofu_pixels_memoized_witness :
    get_tofu_pixels initTofuState sampleFont = some (5, [(0, 5)]) ∧
    get_tofu_pixels [(0, 5)] sampleFont = some (5, [(0, 5)]) := by
  constructor
  · have h := get_tofu_pixels_memoized.1 initTofuState sampleFont rfl
    rw [h]; rfl
  · exact get_tofu_pixels_memoized.2.1 [(0, 5)] sampleFont sampleFont 5 rfl rfl

/-- C1: `font_has_glyph` is unconditionally true on space and non-breaking
space regardless of the cache or the tofu footprint; for any other
character whose render and tofu computation succeed, it returns false
exactly when the rendered pixel count equals the font's tofu footprint or
equals zero. -/
theorem font_has_glyph_pixel_rule :
    (∀ (st : TofuState) (f : Font),
      font_has_glyph st f 0x20 = (true, st) ∧ font_has_glyph st f 0xA0 = (true, st)) ∧
    (∀ (st : TofuState) (f : Font) (c pixels tofu : Nat) (st' : TofuState),
      ¬(c = 0x20 ∨ c = 0xA0) → f.renderPixels c = some pixels →
      get_tofu_pixels st f = some (tofu, st') →
      ((font_has_glyph st f c).1 = false ↔ (pixels = tofu ∨ pixels = 0))) := by
  constructor
  · intro st f
    constructor
    · rw [font_has_glyph, if_pos (Or.inl rfl)]
    · rw [font_has_glyph, if_pos (Or.inr rfl)]
  · intro st f c pixels tofu st' hws hr ht
    simp only [font_has_glyph, if_neg hws, hr, ht]
    by_cases h1 : pixels = tofu <;> by_cases h2 : pixels = 0 <;> simp [h1, h2]

/-- C1 witness: on `sampleFont` (tofu footprint 5), `A` (9 pixels) is
accepted, `B` (exactly 5 pixels) and `C` (0 pixels) are rejected, and
space is accepted. -/
theorem font_has_glyph_pixel_rule_witness :
    (font_has_glyph initTofuState sampleFont 0x20 = (true, initTofuState)) ∧
    ((font_has_glyph initTofuState sampleFont 0x41).1 = false ↔ ((9 : Nat) = 5 ∨ (9 : Nat) = 0)) ∧
    ((font_has_glyph initTofuState sampleFont 0x42).1 = false ↔ ((5 : Nat) = 5 ∨ (5 : Nat) = 0)) := by
  refine ⟨(font_has_glyph_pixel_rule.1 initTofuState sampleFont).1, ?_, ?_⟩
  · exact font_has_glyph_pixel_rule.2 initTofuState sampleFont 0x41 9 5 [(0, 5)]
      (by decide) rfl rfl
  · exact font_has_glyph_pixel_rule.2 initTofuState sampleFont 0x42 5 5 [(0, 5)]
      (by decide) rfl rfl

/-- C6: for a positive natural bounding box that needs scaling, the
clamped scaled dimensions lie in `[1, tileWidth-2]` and
`[1, tileHeight-4]` respectively, so the scaled footprint fits the padded
cell interior. -/
theorem scaled_dims_fit_interior (char_width char_height : Int) (tile_width tile_height : Nat)
    (hw : 0 < char_width) (hh : 0 < char_height)
    (htw : 2 < tile_width) (hth : 4 < tile_height)
    (hns : needs_scale char_width char_height ((tile_width : Int) - 2) ((tile_height : Int) - 4) = true) :
    (1 ≤ scaled_dim char_width
        (scale_factor char_width char_height ((tile_width : Int) - 2) ((tile_height : Int) - 4)) ∧
      scaled_dim char_width
        (scale_factor char_width char_height ((tile_width : Int) - 2) ((tile_height : Int) - 4)) ≤
        (tile_width : Int) - 2) ∧
    (1 ≤ scaled_dim char_height
        (scale_factor char_width char_height ((tile_width : Int) - 2) ((tile_height : Int) - 4)) ∧
      scaled_dim char_height
        (scale_factor char_width char_height ((tile_width : Int) - 2) ((tile_height : Int) - 4)) ≤
        (tile_height : Int) - 4) := by
  set mw : Int := (tile_width : Int) - 2 with hmwdef
  set mh : Int := (tile_height : Int) - 4 with hmhdef
  have hcw : (0 : ℚ) < (char_width : ℚ) := by exact_mod_cast hw
  have hch : (0 : ℚ) < (char_height : ℚ) := by exact_mod_cast hh
  have hmw0 : (0 : Int) ≤ mw := by omega
  have hmh0 : (0 : Int) ≤ mh := by omega
  have hs0 : 0 ≤ scale_factor char_width char_height mw mh :=
    le_min (div_nonneg (by exact_mod_cast hmw0) hcw.le)
      (div_nonneg (by exact_mod_cast hmh0) hch.le)
  refine ⟨⟨le_max_left 1 _, ?_⟩, ⟨le_max_left 1 _, ?_⟩⟩
  · exact scaled_dim_le char_width mw _ hw (by omega) hs0 (min_le_left _ _)
  · exact scaled_dim_le char_height mh _ hh (by omega) hs0 (min_le_right _ _)

/-- C6 witness: a 72x120 bounding box at the calibrated 38x64 tile. -/
theorem scaled_dims_fit_interior_witness :
    (1 ≤ scaled_dim 72 (scale_factor 72 120 ((TILE_WIDTH : Int) - 2) ((TILE_HEIGHT : Int) - 4)) ∧
      scaled_dim 72 (scale_factor 72 120 ((TILE_WIDTH : Int) - 2) ((TILE_HEIGHT : Int) - 4)) ≤
        (TILE_WIDTH : Int) - 2) ∧
    (1 ≤ scaled_dim 120 (scale_factor 72 120 ((TILE_WIDTH : Int) - 2) ((TILE_HEIGHT : Int) - 4)) ∧
      scaled_dim 120 (scale_factor 72 120 ((TILE_WIDTH : Int) - 2) ((TILE_HEIGHT : Int) - 4)) ≤
        (TILE_HEIGHT : Int) - 4) :=
  scaled_dims_fit_interior 72 120 TILE_WIDTH TILE_HEIGHT (by decide) (by decide)
    (by decide) (by decide) (by decide)

/-- C5 (the code at a failing input): with a full-box 72x120 glyph at the
38x64 tile the scaling branch is taken, yet the intermediate 144x240
canvas holds the glyph at natural size only — pixel (10,10) is filled but
pixel (100,100), which a glyph drawn at 2x linear size would cover (the
mask covers (50,50)), is transparent.  The subsequent whole-canvas resize
therefore scales the glyph by about half the claimed factor and leaves it
in the top-left quadrant of the pasted rectangle. -/
theorem oversize_glyph_drawn_at_natural_size :
    boxFont.bbox 0x41 = some (0, 0, 72, 120) ∧
    needs_scale 72 120 ((TILE_WIDTH : Int) - 2) ((TILE_HEIGHT : Int) - 4) = true ∧
    (large_image 0x41 boxFont (0, 0, 72, 120) 72 120).width = 144 ∧
    (large_image 0x41 boxFont (0, 0, 72, 120) 72 120).height = 240 ∧
    (large_image 0x41 boxFont (0, 0, 72, 120) 72 120).px 10 10 = DEFAULT_FILL ∧
    boxFont.mask 0x41 50 50 = true ∧
    (large_image 0x41 boxFont (0, 0, 72, 120) 72 120).px 100 100 = transparent := by
  refine ⟨rfl, by decide, rfl, rfl, by decide, by decide, by decide⟩

/-- Helper: whenever the rasterizer can process the character, the
renderer returns an image of exactly the requested dimensions that is
transparent outside the drawn region. -/
theorem render_tile_ok (lanczos : Resampler) (char : Nat) (font : Font)
    (tile_width tile_height : Nat) (h0w : 0 < tile_width) (h0h : 0 < tile_height)
    (hc : font.canRender char = true) :
    ∃ img, render_char_to_tile lanczos char font tile_width tile_height = Except.ok img ∧
      img.width = tile_width ∧ img.height = tile_height ∧
      ∀ x y : Int, ¬ tile_draw_region char font tile_width tile_height x y →
        img.px x y = transparent := by
  simp only [render_char_to_tile, hc, if_true]
  split
  next hcond =>
    refine ⟨_, rfl, rfl, rfl, ?_⟩
    intro x y hnr
    simp only [tile_draw_region] at hnr
    rw [if_pos hcond] at hnr
    simp only [Image_paste, Image_new, Image_resize]
    rw [if_neg hnr]
  next hcond =>
    refine ⟨_, rfl, rfl, rfl, ?_⟩
    intro x y hnr
    simp only [tile_draw_region] at hnr
    rw [if_neg hcond] at hnr
    simp only [drawText, Image_new]
    rw [if_neg hnr]

/-- C3 (amended): whenever the rasterizer can process the character, the
renderer returns an image of exactly the requested dimensions that is
transparent outside the drawn region, for any positive tile size and any
character — including degenerate zero-size bounding boxes. -/
theorem render_char_to_tile_contract (lanczos : Resampler) (char : Nat) (font : Font)
    (tile_width tile_height : Nat) (h0w : 0 < tile_width) (h0h : 0 < tile_height)
    (hc : font.canRender char = true) :
    ∃ img, render_char_to_tile lanczos char font tile_width tile_height = Except.ok img ∧
      img.width = tile_width ∧ img.height = tile_height ∧
      ∀ x y : Int, ¬ tile_draw_region char font tile_width tile_height x y →
        img.px x y = transparent :=
  render_tile_ok lanczos char font tile_width tile_height h0w h0h hc

/-- C3 as stated is refuted: a rasterizer exception during measurement is
not caught by `render_char_to_tile` and escapes as an error instead of an
image. -/
theorem render_char_to_tile_propagates :
    render_char_to_tile trivialResampler 0x41 failFont TILE_WIDTH TILE_HEIGHT =
      Except.error () := rfl

/-- C3 witness: rendering `A` with `sampleFont` at the calibrated tile
yields a 38x64 image whose corner pixel is transparent. -/
theorem render_char_to_tile_contract_witness :
    (render_char_to_tile trivialResampler 0x41 sampleFont TILE_WIDTH TILE_HEIGHT).map
        (fun img => (img.width, img.height, img.px 0 0)) =
      Except.ok (TILE_WIDTH, TILE_HEIGHT, transparent) := by
  obtain ⟨img, h1, h2, h3, h4⟩ :=
    render_char_to_tile_contract trivialResampler 0x41 sampleFont TILE_WIDTH TILE_HEIGHT
      (by decide) (by decide) (by decide)
  have hreg : ¬ tile_draw_region 0x41 sampleFont TILE_WIDTH TILE_HEIGHT 0 0 := by
    simp only [tile_draw_region]
    decide
  rw [h1]
  simp only [Except.map]
  rw [h2, h3, h4 0 0 hreg]

/-- C9: `grid_rows` is the ceiling of count over columns (the least `m`
with `count ≤ columns * m`, computed as `(count + columns - 1) div
columns`); the cell offset for index `i` is
`((i mod columns) * tileWidth, (i div columns) * tileHeight)`; distinct
indices occupy disjoint pixel rectangles in both grids; and a successful
CP437 build has exactly the grid dimensions. -/
theorem atlas_grid_math :
    (∀ n t, 0 < t → n ≤ t * grid_rows n t ∧ ∀ m, n ≤ t * m → grid_rows n t ≤ m) ∧
    (∀ i, cell_offset i CP437_TILES_PER_ROW TILE_WIDTH TILE_HEIGHT =
      ((i % CP437_TILES_PER_ROW) * TILE_WIDTH, (i / CP437_TILES_PER_ROW) * TILE_HEIGHT)) ∧
    (∀ i j x y, i ≠ j →
      cell_region i CP437_TILES_PER_ROW TILE_WIDTH TILE_HEIGHT x y →
      cell_region j CP437_TILES_PER_ROW TILE_WIDTH TILE_HEIGHT x y → False) ∧
    (∀ i j x y, i ≠ j →
      cell_region i UNICODE_TILES_PER_ROW TILE_WIDTH TILE_HEIGHT x y →
      cell_region j UNICODE_TILES_PER_ROW TILE_WIDTH TILE_HEIGHT x y → False) ∧
    (∀ (lanczos : Resampler) (font : Font) (img : Img),
      create_cp437_tileset lanczos font = Except.ok img →
      img.width = CP437_TILES_PER_ROW * TILE_WIDTH ∧
      img.height = grid_rows CP437_CHARS.length CP437_TILES_PER_ROW * TILE_HEIGHT) := by
  refine ⟨grid_rows_spec, fun i => rfl, cell_region_disjoint_cp437,
    cell_region_disjoint_unicode, ?_⟩
  intro lanczos font img h
  have h2 := cp437_loop_dims lanczos font CP437_CHARS 0 _ img h
  exact h2

/-- C9 witness: the CP437 grid is 16 rows of 16 (256 characters), and the
cell of index 1 does not overlap the pixel (5,5) of cell 0. -/
theorem atlas_grid_math_witness :
    (256 ≤ 16 * grid_rows 256 16 ∧ grid_rows 256 16 ≤ 16) ∧
    ¬ cell_region 1 CP437_TILES_PER_ROW TILE_WIDTH TILE_HEIGHT 5 5 := by
  constructor
  · have h := atlas_grid_math.1 256 16 (by decide)
    exact ⟨h.1, h.2 16 (by decide)⟩
  · intro hj
    have hi : cell_region 0 CP437_TILES_PER_ROW TILE_WIDTH TILE_HEIGHT 5 5 := by
      unfold cell_region cell_offset
      decide
    exact atlas_grid_math.2.2.1 0 1 5 5 (by decide) hi hj

/-- In a list of fonts with pairwise-distinct identities, a shared
identity forces equality. -/
theorem distinctIds_eq {l : List Font} (hd : distinctIds l) :
    ∀ {f g : Font}, f ∈ l → g ∈ l → f.fontId = g.fontId → f = g := by
  induction l with
  | nil => intro f g hf _ _; cases hf
  | cons a rest ih =>
    intro f g hf hg hid
    have hd' := List.pairwise_cons.mp hd
    rcases List.mem_cons.mp hf with rfl | hf'
    · rcases List.mem_cons.mp hg with rfl | hg'
      · rfl
      · exact absurd hid (hd'.1 g hg')
    · rcases List.mem_cons.mp hg with rfl | hg'
      · exact absurd hid.symm (hd'.1 f hf')
      · exact ih hd'.2 hf' hg' hid

/-- Under a coherent cache, the tofu value a font gets is its probe
count (whether cached or freshly rendered). -/
theorem get_tofu_pixels_coherent_fst {st : TofuState} {l : List Font} {f : Font}
    (hco : coherentTofu st l) (hf : f ∈ l) :
    (get_tofu_pixels st f).map Prod.fst = f.renderPixels tofu_probe := by
  cases hl : st.lookup f.fontId with
  | some p => simp [get_tofu_pixels, hl, hco f hf p hl]
  | none =>
    cases hp : f.renderPixels tofu_probe <;> simp [get_tofu_pixels, hl, hp]

/-- Reading the tofu cache (and writing a fresh probe result) keeps it
coherent. -/
theorem get_tofu_pixels_coherent_state {st : TofuState} {l : List Font} {f : Font}
    {t : Nat} {st' : TofuState}
    (hco : coherentTofu st l) (hf : f ∈ l) (hd : distinctIds l)
    (h : get_tofu_pixels st f = some (t, st')) : coherentTofu st' l := by
  cases hl : st.lookup f.fontId with
  | some p =>
    simp only [get_tofu_pixels, hl, Option.some.injEq, Prod.mk.injEq] at h
    obtain ⟨rfl, rfl⟩ := h
    exact hco
  | none =>
    cases hp : f.renderPixels tofu_probe with
    | none => simp [get_tofu_pixels, hl, hp] at h
    | some p =>
      simp only [get_tofu_pixels, hl, hp, Option.some.injEq, Prod.mk.injEq] at h
      obtain ⟨rfl, rfl⟩ := h
      intro g hg q hq
      rw [List.lookup_cons] at hq
      by_cases hgid : g.fontId = f.fontId
      · simp only [hgid, beq_self_eq_true] at hq
        injection hq with hq2
        subst hq2
        have hgf : g = f := distinctIds_eq hd hg hf hgid
        rw [hgf, hp]
      · have hbeq : (g.fontId == f.fontId) = false := beq_eq_false_iff_ne.mpr hgid
        simp only [hbeq] at hq
        exact hco g hg q hq

/-- Under a coherent cache, the boolean outcome of every glyph check
equals the run outcome `hasGlyphRun` — the cache never changes the
classification. -/
theorem font_has_glyph_fst {st : TofuState} {l : List Font} {f : Font} (c : Nat)
    (hco : coherentTofu st l) (hf : f ∈ l) :
    (font_has_glyph st f c).1 = hasGlyphRun f c := by
  unfold hasGlyphRun
  by_cases hws : c = 0x20 ∨ c = 0xA0
  · simp [font_has_glyph, hws]
  · simp only [font_has_glyph, if_neg hws]
    cases hr : f.renderPixels c with
    | none => rfl
    | some pixels =>
      cases hprobe : f.renderPixels tofu_probe with
      | none =>
        have hmap := get_tofu_pixels_coherent_fst hco hf
        rw [hprobe] at hmap
        have ht : get_tofu_pixels st f = none := by
          cases hg : get_tofu_pixels st f with
          | none => rfl
          | some pr => rw [hg] at hmap; simp at hmap
        have htInit : get_tofu_pixels initTofuState f = none := by
          simp [get_tofu_pixels, initTofuState, List.lookup, hprobe]
        rw [ht, htInit]
      | some t =>
        have hmap := get_tofu_pixels_coherent_fst hco hf
        rw [hprobe] at hmap
        obtain ⟨st2, ht⟩ : ∃ st2, get_tofu_pixels st f = some (t, st2) := by
          cases hg : get_tofu_pixels st f with
          | none => rw [hg] at hmap; simp at hmap
          | some pr =>
            obtain ⟨t2, st2⟩ := pr
            rw [hg] at hmap
            simp only [Option.map_some', Option.some.injEq] at hmap
            exact ⟨st2, by rw [hmap]⟩
        have htInit : get_tofu_pixels initTofuState f = some (t, [(f.fontId, t)]) := by
          simp [get_tofu_pixels, initTofuState, List.lookup, hprobe]
        rw [ht, htInit]
        by_cases h1 : pixels = t <;> by_cases h2 : pixels = 0 <;> simp [h1, h2]

/-- Every glyph check leaves the tofu cache coherent. -/
theorem font_has_glyph_coherent_state {st : TofuState} {l : List Font} {f : Font} (c : Nat)
    (hco : coherentTofu st l) (hf : f ∈ l) (hd : distinctIds l) :
    coherentTofu (font_has_glyph st f c).2 l := by
  by_cases hws : c = 0x20 ∨ c = 0xA0
  · simp only [font_has_glyph, if_pos hws]
    exact hco
  · simp only [font_has_glyph, if_neg hws]
    cases hr : f.renderPixels c with
    | none => exact hco
    | some pixels =>
      cases ht : get_tofu_pixels st f with
      | none => exact hco
      | some pr =>
        obtain ⟨t, st2⟩ := pr
        have hst2 := get_tofu_pixels_coherent_state hco hf hd ht
        by_cases h1 : pixels = t <;> by_cases h2 : pixels = 0 <;>
          simp [h1, h2] <;> exact hst2

/-- The code's symbol-range test agrees with the spec's four inclusive
ranges. -/
theorem should_use_symbol_font_eq_spec (c : Nat) :
    should_use_symbol_font c = spec_symbol_preferring c := by
  simp [should_use_symbol_font, symbol_ranges, spec_symbol_preferring,
    List.any_cons, List.any_nil, Bool.or_assoc]

/-- The symbol-font fallback loop selects the first symbol font whose
glyph check passes, and keeps the cache coherent. -/
theorem find_symbol_font_spec {l : List Font} (c : Nat) (hd : distinctIds l) :
    ∀ (sfs : List Font) (st : TofuState), coherentTofu st l → (∀ f ∈ sfs, f ∈ l) →
      (find_symbol_font st sfs c).1 = sfs.find? (fun f => hasGlyphRun f c) ∧
      coherentTofu (find_symbol_font st sfs c).2 l := by
  intro sfs
  induction sfs with
  | nil => intro st hco _; exact ⟨rfl, hco⟩
  | cons f rest ih =>
    intro st hco hsub
    have hfl : f ∈ l := hsub f (List.mem_cons_self f rest)
    have hfst := font_has_glyph_fst (l := l) c hco hfl
    have hst := font_has_glyph_coherent_state (l := l) c hco hfl hd
    simp only [find_symbol_font, hfst, List.find?_cons]
    by_cases hg : hasGlyphRun f c
    · rw [if_pos hg, hg]
      exact ⟨rfl, hst⟩
    · rw [if_neg hg, Bool.of_not_eq_true hg]
      exact ih _ hst (fun g hgm => hsub g (List.mem_cons_of_mem f hgm))

/-- Helper: under the run invariants the selection block computes exactly
the spec-order selection. -/
theorem select_font_spec_eq (st : TofuState) (main_font : Font) (symbol_fonts : List Font)
    (c : Nat) (hco : coherentTofu st (main_font :: symbol_fonts))
    (hd : distinctIds (main_font :: symbol_fonts)) :
    (select_font st main_font symbol_fonts c).1 = selectFontSpec main_font symbol_fonts c := by
  have hsub : ∀ f ∈ symbol_fonts, f ∈ main_font :: symbol_fonts :=
    fun f hf => List.mem_cons_of_mem _ hf
  have hmain : main_font ∈ main_font :: symbol_fonts := List.mem_cons_self _ _
  simp only [select_font, selectFontSpec, should_use_symbol_font_eq_spec]
  by_cases hsp : spec_symbol_preferring c
  · rw [if_pos hsp, if_pos hsp]
    obtain ⟨hfind, hcoh2⟩ := find_symbol_font_spec c hd symbol_fonts st hco hsub
    rw [hfind]
    cases hfd : symbol_fonts.find? (fun f => hasGlyphRun f c) with
    | some f => rfl
    | none =>
      rw [font_has_glyph_fst c hcoh2 hmain]
      by_cases hm : hasGlyphRun main_font c <;> simp [hm]
  · rw [if_neg hsp, if_neg hsp]
    rw [font_has_glyph_fst c hco hmain]
    by_cases hm : hasGlyphRun main_font c
    · simp [hm]
    · simp only [hm, Bool.false_eq_true, if_false]
      obtain ⟨hfind, _⟩ := find_symbol_font_spec c hd symbol_fonts
        (font_has_glyph st main_font c).2
        (font_has_glyph_coherent_state c hco hmain hd) hsub
      exact hfind

/-- C2: under the run invariants (coherent cache, distinct font
identities), the selection block realises exactly the spec's priority
order: symbol-preferring characters (the four inclusive ranges) walk the
symbol fonts in declared order and fall back to the general font; all
other characters try the general font first and then the symbol fonts;
`none` exactly when no candidate has a usable glyph — a normal outcome. -/
theorem select_font_priority (st : TofuState) (main_font : Font) (symbol_fonts : List Font)
    (c : Nat) (hco : coherentTofu st (main_font :: symbol_fonts))
    (hd : distinctIds (main_font :: symbol_fonts)) :
    (select_font st main_font symbol_fonts c).1 = selectFontSpec main_font symbol_fonts c :=
  select_font_spec_eq st main_font symbol_fonts c hco hd

/-- C2 witness: U+2626 (symbol-preferring) at a fresh cache with two
symbol fonts: the code's selection equals the spec's priority order, and
that order picks the first symbol font. -/
theorem select_font_priority_witness :
    (select_font initTofuState sampleFont [symFontA, symFontB] 0x2626).1 =
      selectFontSpec sampleFont [symFontA, symFontB] 0x2626 ∧
    selectFontSpec sampleFont [symFontA, symFontB] 0x2626 = some symFontA := by
  constructor
  · exact select_font_priority initTofuState sampleFont [symFontA, symFontB] 0x2626
      (by intro f hf p hp; simp [initTofuState, List.lookup] at hp)
      (by simp [distinctIds, List.pairwise_cons, sampleFont, symFontA, symFontB])
  · rfl

/-- The loading loop of `load_symbol_fonts` is the order-preserving
filter-and-load of the existing candidate paths. -/
theorem load_fonts_loop_filter (exists_p : String → Bool) (truetype : String → Nat → Font) :
    ∀ paths : List String, load_fonts_loop exists_p truetype paths =
      (paths.filter exists_p).map (fun p => truetype p FONT_SIZE) := by
  intro paths
  induction paths with
  | nil => rfl
  | cons p rest ih =>
    simp only [load_fonts_loop, List.filter_cons]
    by_cases hp : exists_p p <;> simp [hp, ih]

/-- C10: `load_symbol_fonts` loads one font per existing candidate path
in declared order; with no existing symbol-font file it returns the empty
list (no fallback), whereas `load_font` falls back to the default font
when none of its candidates exists; and with an empty symbol-font list
the selection for a symbol-preferring character reduces to the general
font's glyph check alone. -/
theorem load_symbol_fonts_spec :
    (∀ exists_p truetype fonts_dir, load_symbol_fonts exists_p truetype fonts_dir =
      ((symbol_font_paths fonts_dir).filter exists_p).map (fun p => truetype p FONT_SIZE)) ∧
    (∀ exists_p truetype fonts_dir, (∀ p ∈ symbol_font_paths fonts_dir, exists_p p = false) →
      load_symbol_fonts exists_p truetype fonts_dir = []) ∧
    (∀ exists_p truetype default_font fonts_dir,
      (∀ p ∈ font_paths fonts_dir, exists_p p = false) →
      load_font exists_p truetype default_font fonts_dir = default_font) ∧
    (∀ (st : TofuState) (main_font : Font) (c : Nat), should_use_symbol_font c = true →
      select_font st main_font [] c =
        (if (font_has_glyph st main_font c).1 then some main_font else none,
         (font_has_glyph st main_font c).2)) := by
  refine ⟨?_, ?_, ?_, ?_⟩
  · intro e t d
    exact load_fonts_loop_filter e t _
  · intro e t d h
    rw [load_symbol_fonts, load_fonts_loop_filter]
    rw [List.filter_eq_nil_iff.mpr (by intro p hp; simp [h p hp])]
    rfl
  · intro e t dflt d h
    rw [load_font, List.find?_eq_none.mpr (by intro p hp; simp [h p hp])]
  · intro st main_font c h
    simp only [select_font, if_pos h, find_symbol_font]
    by_cases hm : (font_has_glyph st main_font c).1 <;> simp [hm]

/-- C10 witness: with no font file present, the symbol loader yields `[]`
while the general loader yields the default font; and U+2700 with no
symbol fonts reduces to the main font's check. -/
theorem load_symbol_fonts_spec_witness :
    load_symbol_fonts (fun _ => false) (fun _ _ => failFont) "fonts" = [] ∧
    load_font (fun _ => false) (fun _ _ => failFont) plainFont "fonts" = plainFont ∧
    select_font initTofuState sampleFont [] 0x2700 =
      (if (font_has_glyph initTofuState sampleFont 0x2700).1 then some sampleFont else none,
       (font_has_glyph initTofuState sampleFont 0x2700).2) := by
  refine ⟨load_symbol_fonts_spec.1 (fun _ => false) (fun _ _ => failFont) "fonts",
    load_symbol_fonts_spec.2.2.1 (fun _ => false) (fun _ _ => failFont) plainFont "fonts"
      (fun p _ => rfl),
    load_symbol_fonts_spec.2.2.2 initTofuState sampleFont 0x2700 (by decide)⟩

/-- A font produced by the spec-order selection is one of the candidates
and passes the glyph check. -/
theorem selectFontSpec_mem {main_font : Font} {symbol_fonts : List Font} {c : Nat} {f : Font}
    (h : selectFontSpec main_font symbol_fonts c = some f) :
    f ∈ main_font :: symbol_fonts ∧ hasGlyphRun f c = true := by
  unfold selectFontSpec at h
  by_cases hsp : spec_symbol_preferring c
  · rw [if_pos hsp] at h
    cases hfd : symbol_fonts.find? (fun g => hasGlyphRun g c) with
    | some g =>
      simp only [hfd] at h
      injection h with h
      subst h
      exact ⟨List.mem_cons_of_mem _ (List.mem_of_find?_eq_some hfd),
        by simpa using List.find?_some hfd⟩
    | none =>
      simp only [hfd] at h
      by_cases hm : hasGlyphRun main_font c
      · rw [if_pos hm] at h
        injection h with h
        subst h
        exact ⟨List.mem_cons_self _ _, hm⟩
      · rw [if_neg hm] at h
        cases h
  · rw [if_neg hsp] at h
    by_cases hm : hasGlyphRun main_font c
    · rw [if_pos hm] at h
      injection h with h
      subst h
      exact ⟨List.mem_cons_self _ _, hm⟩
    · rw [if_neg hm] at h
      exact ⟨List.mem_cons_of_mem _ (List.mem_of_find?_eq_some h),
        by simpa using List.find?_some h⟩

/-- For a non-whitespace character, a passing glyph check required a
successful render. -/
theorem hasGlyphRun_canRender {f : Font} {c : Nat} (h : hasGlyphRun f c = true)
    (hws : ¬(c = 0x20 ∨ c = 0xA0)) : f.canRender c = true := by
  unfold hasGlyphRun font_has_glyph at h
  rw [if_neg hws] at h
  cases hr : f.renderPixels c with
  | none =>
    rw [hr] at h
    exact Bool.noConfusion h
  | some p => simp [Font.canRender, hr]

/-- Any font the spec-order selection returns can render the character,
provided the main font can draw the whitespace characters (which bypass
the glyph check and always select the main font). -/
theorem selectFontSpec_canRender {main_font : Font} {symbol_fonts : List Font} {c : Nat}
    {f : Font} (hws20 : main_font.canRender 0x20 = true)
    (hwsA0 : main_font.canRender 0xA0 = true)
    (h : selectFontSpec main_font symbol_fonts c = some f) : f.canRender c = true := by
  by_cases hws : c = 0x20 ∨ c = 0xA0
  · rcases hws with rfl | rfl
    · have hm : selectFontSpec main_font symbol_fonts 0x20 = some main_font := by
        simp only [selectFontSpec]
        rw [if_neg (by decide), if_pos (show hasGlyphRun main_font 0x20 = true from rfl)]
      rw [hm] at h
      injection h with h
      subst h
      exact hws20
    · have hm : selectFontSpec main_font symbol_fonts 0xA0 = some main_font := by
        simp only [selectFontSpec]
        rw [if_neg (by decide), if_pos (show hasGlyphRun main_font 0xA0 = true from rfl)]
      rw [hm] at h
      injection h with h
      subst h
      exact hwsA0
  · exact hasGlyphRun_canRender (selectFontSpec_mem h).2 hws

/-- The selection block keeps the tofu cache coherent. -/
theorem select_font_coherent_state (st : TofuState) (main_font : Font)
    (symbol_fonts : List Font) (c : Nat)
    (hco : coherentTofu st (main_font :: symbol_fonts))
    (hd : distinctIds (main_font :: symbol_fonts)) :
    coherentTofu (select_font st main_font symbol_fonts c).2 (main_font :: symbol_fonts) := by
  have hsub : ∀ f ∈ symbol_fonts, f ∈ main_font :: symbol_fonts :=
    fun f hf => List.mem_cons_of_mem _ hf
  have hmain : main_font ∈ main_font :: symbol_fonts := List.mem_cons_self _ _
  simp only [select_font]
  by_cases hsp : should_use_symbol_font c
  · rw [if_pos hsp]
    obtain ⟨_, hco2⟩ := find_symbol_font_spec c hd symbol_fonts st hco hsub
    cases hsel : (find_symbol_font st symbol_fonts c).1 with
    | some f => exact hco2
    | none =>
      have hco3 := font_has_glyph_coherent_state c hco2 hmain hd
      by_cases hm : (font_has_glyph (find_symbol_font st symbol_fonts c).2 main_font c).1 <;>
        simp only [hm, if_true, if_false, Bool.false_eq_true] <;> exact hco3
  · rw [if_neg hsp]
    have hco2 := font_has_glyph_coherent_state c hco hmain hd
    by_cases hm : (font_has_glyph st main_font c).1
    · simp only [hm, if_true]
      exact hco2
    · simp only [hm, Bool.false_eq_true, if_false]
      exact (find_symbol_font_spec c hd symbol_fonts _ hco2 hsub).2

/-- If a pixel lies outside the pasted rectangle, pasting leaves it
unchanged. -/
theorem Image_paste_outside (dst src : Img) (ox oy x y : Int)
    (h : ¬(ox ≤ x ∧ x < ox + src.width ∧ oy ≤ y ∧ y < oy + src.height)) :
    (Image_paste dst src ox oy).px x y = dst.px x y := by
  simp only [Image_paste]
  rw [if_neg h]

/-- The invariant of the Unicode character loop under the run invariants
(coherent cache, distinct font identities, main font able to draw the
whitespace characters): the loop always succeeds, preserves the atlas
dimensions, and leaves untouched every pixel covered only by cells whose
characters resolve to no font. -/
theorem unicode_loop_invariant (lanczos : Resampler) (main_font : Font)
    (symbol_fonts : List Font) (hd : distinctIds (main_font :: symbol_fonts))
    (hws20 : main_font.canRender 0x20 = true) (hwsA0 : main_font.canRender 0xA0 = true) :
    ∀ (chars : List Nat) (i : Nat) (img : Img) (st : TofuState) (missing : List Nat),
      coherentTofu st (main_font :: symbol_fonts) →
      ∃ res, unicode_loop lanczos main_font symbol_fonts i chars img st missing = .ok res ∧
        res.1.width = img.width ∧ res.1.height = img.height ∧
        ∀ x y : Int,
          (∀ k c', chars.get? k = some c' →
            cell_region (i + k) UNICODE_TILES_PER_ROW TILE_WIDTH TILE_HEIGHT x y →
            selectFontSpec main_font symbol_fonts c' = none) →
          res.1.px x y = img.px x y := by
  intro chars
  induction chars with
  | nil =>
    intro i img st missing hco
    exact ⟨(img, st, missing), rfl, rfl, rfl, fun x y _ => rfl⟩
  | cons c rest ih =>
    intro i img st missing hco
    have hsel := select_font_spec_eq st main_font symbol_fonts c hco hd
    have hcost := select_font_coherent_state st main_font symbol_fonts c hco hd
    simp only [unicode_loop]
    cases hs : (select_font st main_font symbol_fonts c).1 with
    | none =>
      have hspec : selectFontSpec main_font symbol_fonts c = none := by
        rw [← hsel, hs]
      obtain ⟨res, hres, hw, hh, hpx⟩ :=
        ih (i + 1) img (select_font st main_font symbol_fonts c).2 (missing ++ [c]) hcost
      refine ⟨res, hres, hw, hh, ?_⟩
      intro x y hcov
      refine hpx x y ?_
      intro k c' hk hr
      have hshift : i + 1 + k = i + (k + 1) := by omega
      rw [hshift] at hr
      exact hcov (k + 1) c' (by simpa using hk) hr
    | some f =>
      have hspec : selectFontSpec main_font symbol_fonts c = some f := by
        rw [← hsel, hs]
      have hcan : f.canRender c = true := selectFontSpec_canRender hws20 hwsA0 hspec
      obtain ⟨tile, htile, htw, hth, _⟩ :=
        render_tile_ok lanczos c f TILE_WIDTH TILE_HEIGHT (by decide) (by decide) hcan
      simp only [htile]
      obtain ⟨res, hres, hw, hh, hpx⟩ :=
        ih (i + 1)
          (Image_paste img tile
            ((cell_offset i UNICODE_TILES_PER_ROW TILE_WIDTH TILE_HEIGHT).1 : Int)
            ((cell_offset i UNICODE_TILES_PER_ROW TILE_WIDTH TILE_HEIGHT).2 : Int))
          (select_font st main_font symbol_fonts c).2 missing hcost
      refine ⟨res, hres, hw, hh, ?_⟩
      intro x y hcov
      have hstep : res.1.px x y =
          (Image_paste img tile
            ((cell_offset i UNICODE_TILES_PER_ROW TILE_WIDTH TILE_HEIGHT).1 : Int)
            ((cell_offset i UNICODE_TILES_PER_ROW TILE_WIDTH TILE_HEIGHT).2 : Int)).px x y := by
        refine hpx x y ?_
        intro k c' hk hr
        have hshift : i + 1 + k = i + (k + 1) := by omega
        rw [hshift] at hr
        exact hcov (k + 1) c' (by simpa using hk) hr
      rw [hstep]
      have hnc : ¬ cell_region i UNICODE_TILES_PER_ROW TILE_WIDTH TILE_HEIGHT x y := by
        intro hr
        have hnone := hcov 0 c rfl (by simpa using hr)
        rw [hspec] at hnone
        cases hnone
      refine Image_paste_outside img tile _ _ x y ?_
      rw [htw, hth]
      exact hnc

/-- C4 (amended): in the Unicode build every character's font is resolved
via the selection block, and a character no candidate font resolves
(spec-order selection `none`) leaves its whole cell fully transparent.
(The CP437 build, by contrast, renders every character with the general
font without any glyph resolution — see the counterexample theorem.) -/
theorem unicode_missing_cells_transparent (lanczos : Resampler) (main_font : Font)
    (symbol_fonts : List Font) (st : TofuState)
    (hco : coherentTofu st (main_font :: symbol_fonts))
    (hd : distinctIds (main_font :: symbol_fonts))
    (hws20 : main_font.canRender 0x20 = true) (hwsA0 : main_font.canRender 0xA0 = true) :
    ∃ res, create_unicode_tileset lanczos main_font symbol_fonts st = .ok res ∧
      ∀ i c, UNICODE_CHARS.get? i = some c →
        selectFontSpec main_font symbol_fonts c = none →
        ∀ x y : Int, cell_region i UNICODE_TILES_PER_ROW TILE_WIDTH TILE_HEIGHT x y →
          res.1.px x y = transparent := by
  obtain ⟨res, hres, hw, hh, hpx⟩ :=
    unicode_loop_invariant lanczos main_font symbol_fonts hd hws20 hwsA0 UNICODE_CHARS 0
      (Image_new (UNICODE_TILES_PER_ROW * TILE_WIDTH)
        (grid_rows UNICODE_CHARS.length UNICODE_TILES_PER_ROW * TILE_HEIGHT) transparent)
      st [] hco
  refine ⟨res, hres, ?_⟩
  intro i c hic hnone x y hr
  have hcov : ∀ k c', UNICODE_CHARS.get? k = some c' →
      cell_region (0 + k) UNICODE_TILES_PER_ROW TILE_WIDTH TILE_HEIGHT x y →
      selectFontSpec main_font symbol_fonts c' = none := by
    intro k c' hk hrk
    rw [Nat.zero_add] at hrk
    by_cases hki : k = i
    · subst hki
      rw [hk] at hic
      injection hic with hic
      subst hic
      exact hnone
    · exact (cell_region_disjoint_unicode k i x y hki hrk hr).elim
  rw [hpx x y hcov]
  rfl

set_option maxRecDepth 100000 in
/-- C4 is refuted on the CP437 build: `tofuFont` has (per the classifier)
no usable glyph for U+263A, yet the CP437 atlas contains an opaque pixel
inside that character's cell — the placeholder box is baked in because
the build renders every character without consulting the Font
Selector. -/
theorem cp437_bakes_tofu :
    (font_has_glyph initTofuState tofuFont 0x263A).1 = false ∧
    (create_cp437_tileset trivialResampler tofuFont).map (fun img => img.px 52 27) =
      Except.ok DEFAULT_FILL := by
  constructor
  · rfl
  · rfl

/-- C4 witness: with a single font whose every render matches its tofu
footprint, the Unicode build succeeds and the cell of `!` (index 1, a
character the selection resolves to no font) is transparent at an
interior pixel. -/
theorem unicode_missing_cells_transparent_witness :
    (create_unicode_tileset trivialResampler plainFont [] initTofuState).map
        (fun res => res.1.px 52 27) = Except.ok transparent := by
  obtain ⟨res, hres, hmiss⟩ :=
    unicode_missing_cells_transparent trivialResampler plainFont [] initTofuState
      (by intro f hf p hp; simp [initTofuState, List.lookup] at hp)
      (by simp [distinctIds])
      rfl rfl
  have hreg : cell_region 1 UNICODE_TILES_PER_ROW TILE_WIDTH TILE_HEIGHT 52 27 := by
    unfold cell_region cell_offset
    decide
  have hpx := hmiss 1 0x21 rfl rfl 52 27 hreg
  rw [hres]
  simp only [Except.map]
  rw [hpx]

/-- One failing render at the head of the character list aborts the
CP437 loop. -/
theorem cp437_loop_head_error (lanczos : Resampler) (f : Font) (c : Nat) (rest : List Nat)
    (i : Nat) (img : Img)
    (h : render_char_to_tile lanczos c f TILE_WIDTH TILE_HEIGHT = Except.error ()) :
    cp437_loop lanczos f i (c :: rest) img = Except.error () := by
  simp only [cp437_loop, h]

/-- C8 (amended): exceptions are caught only inside `font_has_glyph`,
where a rasterizer failure for a non-whitespace character yields `false`
with the cache untouched (whitespace never renders, so no exception can
arise there); the Unicode build propagates no per-character failure
because tiles are only rendered with fonts that passed the glyph check —
given the run invariants and a main font able to draw the whitespace
characters, which bypass the check; but `render_char_to_tile` itself
catches nothing, and the CP437 build renders every character unguarded,
so a rasterizer failure there aborts the whole build. -/
theorem rendering_exceptions :
    (∀ (st : TofuState) (f : Font) (c : Nat), ¬(c = 0x20 ∨ c = 0xA0) →
      f.renderPixels c = none → font_has_glyph st f c = (false, st)) ∧
    (∀ (lanczos : Resampler) (main_font : Font) (symbol_fonts : List Font) (st : TofuState),
      coherentTofu st (main_font :: symbol_fonts) → distinctIds (main_font :: symbol_fonts) →
      main_font.canRender 0x20 = true → main_font.canRender 0xA0 = true →
      ∃ res, create_unicode_tileset lanczos main_font symbol_fonts st = Except.ok res) ∧
    (∀ (lanczos : Resampler) (f : Font), f.renderPixels 0 = none →
      create_cp437_tileset lanczos f = Except.error ()) := by
  refine ⟨?_, ?_, ?_⟩
  · intro st f c hws hr
    simp only [font_has_glyph, if_neg hws, hr]
  · intro lanczos mf sfs st hco hd h20 hA0
    obtain ⟨res, hres, -, -, -⟩ :=
      unicode_loop_invariant lanczos mf sfs hd h20 hA0 UNICODE_CHARS 0
        (Image_new (UNICODE_TILES_PER_ROW * TILE_WIDTH)
          (grid_rows UNICODE_CHARS.length UNICODE_TILES_PER_ROW * TILE_HEIGHT) transparent)
        st [] hco
    exact ⟨res, hres⟩
  · intro lanczos f hr
    have hcr : f.canRender 0 = false := by simp [Font.canRender, hr]
    have hrend : render_char_to_tile lanczos 0 f TILE_WIDTH TILE_HEIGHT = Except.error () := by
      simp only [render_char_to_tile, hcr, Bool.false_eq_true, if_false]
    have h0 : create_cp437_tileset lanczos f =
        cp437_loop lanczos f 0 CP437_CHARS
          (Image_new (CP437_TILES_PER_ROW * TILE_WIDTH)
            (grid_rows CP437_CHARS.length CP437_TILES_PER_ROW * TILE_HEIGHT) transparent) := rfl
    rw [h0, (rfl : CP437_CHARS = 0x0000 :: CP437_CHARS.tail)]
    exact cp437_loop_head_error lanczos f 0x0000 CP437_CHARS.tail 0 _ hrend

/-- C8 witness: `failFont` (every rasterizer call raises) is classified
as lacking the glyph for `A` without an exception escaping, while the
CP437 build with the same font aborts with an error. -/
theorem rendering_exceptions_witness :
    font_has_glyph initTofuState failFont 0x41 = (false, initTofuState) ∧
    create_cp437_tileset trivialResampler failFont = Except.error () :=
  ⟨rendering_exceptions.1 initTofuState failFont 0x41 (by decide) rfl,
   rendering_exceptions.2.2 trivialResampler failFont rfl⟩

/-- C8 as stated is refuted: a rasterizer failure during tile drawing is
not caught anywhere in the CP437 build, so it propagates out of the
atlas build instead of being treated as a missing glyph. -/
theorem cp437_failure_propagates :
    create_cp437_tileset trivialResampler failFont = Except.error () := rfl
